import Mathlib

/-!
Verification development for the lm-discord-bot repository.

Shallow embedding conventions:
* JavaScript strings are Lean `String`s (or `List Char` where index
  arithmetic matters, as in `util/string.ts`).
* Every external effect (LM Studio `model.respond`, Redis get/set, HTTP
  fetch) is modelled by an input parameter holding that call's outcome:
  `Except Unit String` for calls that can throw, plain data for the rest.
  A `try/catch` in the source becomes a `match` on that outcome.
* `JSON.parse` is an external library routine; it is modelled by a
  parameter `parseJson : String -> Option Json` over the `Json` value
  type below (`none` = the parse threw).  JavaScript `undefined` is
  identified with `Json.null`: in this code base every field read is
  immediately guarded by `|| default` or a truthiness test, for which
  `null` and `undefined` behave identically.
-/

namespace LmBot

/-- JSON values as produced by `JSON.parse` (numbers restricted to the
integers, which is all the scores in this program use). -/
inductive Json where
  | null
  | bool (b : Bool)
  | num (n : Int)
  | str (s : String)
  | arr (elems : List Json)
  | obj (fields : List (String × Json))

/-- JavaScript truthiness of a parsed JSON value. -/
def jsTruthy : Json → Bool
  | .null => false
  | .bool b => b
  | .num n => !(n == 0)
  | .str s => !(s == "")
  | .arr _ => true
  | .obj _ => true

/-- JavaScript `a || b` on parsed JSON values. -/
def jsOr (a b : Json) : Json :=
  if jsTruthy a then a else b

/-- JavaScript property read `v.k` for non-null `v` (a read on a
primitive yields `undefined`, modelled as `.null`).  Reads on `null`
itself throw a TypeError in JavaScript; call sites route `Json.null`
through the surrounding `catch` instead of using this function. -/
def Json.fieldD : Json → String → Json
  | .obj fields, k => ((fields.find? (fun p => p.1 == k)).map Prod.snd).getD .null
  | _, _ => .null

/-- ASCII members of the regex class `\s` (also the characters
`String.prototype.trim` strips, beyond Unicode spaces this code never
meets). -/
def jsWhitespace (c : Char) : Bool :=
  c == ' ' || c == '\t' || c == '\n' || c == '\r' || c == '\x0b' || c == '\x0c'

/-- JavaScript `String.prototype.trim` over `List Char`. -/
def trimChars (cs : List Char) : List Char :=
  ((cs.dropWhile jsWhitespace).reverse.dropWhile jsWhitespace).reverse

/-- JavaScript `String.prototype.trim` over `String`. -/
def jsTrim (s : String) : String :=
  String.mk (trimChars s.toList)

/-- First index of character `c` in `cs`. -/
def firstIdx (cs : List Char) (c : Char) : Option Nat :=
  cs.findIdx? (fun x => x == c)

/-- Last index of character `c` in `cs`. -/
def lastIdx (cs : List Char) (c : Char) : Option Nat :=
  (cs.reverse.findIdx? (fun x => x == c)).map (fun i => cs.length - 1 - i)

/-- The substring matched by the regex `/\x7b[\s\S]*\x7d/` (first `\x7b`
through the last `\x7d`, when the latter comes after the former), as
used by both copies of `extractJsonFromText` in the source. -/
def jsonSlice (text : String) : Option String :=
  let cs := text.toList
  match firstIdx cs '\x7b', lastIdx cs '\x7d' with
  | some i, some j =>
    if i ≤ j then some (String.mk ((cs.drop i).take (j + 1 - i))) else none
  | _, _ => none

/-- `extractJsonFromText` (contextSeparation.ts / hallucination.ts):
locate the first balanced-brace slice and JSON-parse it; `none` models
the two `throw` paths (no slice found, or `JSON.parse` threw). -/
def extractJsonFromText (parseJson : String → Option Json) (text : String) : Option Json :=
  (jsonSlice text).bind parseJson

/-- One chat message: a role/content record in the source. -/
structure Msg where
  role : String
  content : String
deriving DecidableEq

/-- JavaScript `Array.prototype.slice(-n)` for `n ≥ 0`: the last `n`
elements — except that `slice(-0)` is `slice(0)`, the whole array. -/
def sliceLast (n : Nat) (l : List α) : List α :=
  if n = 0 then l else l.drop (l.length - n)

/-- `ConversationContext.saveConversation`, pure core: the update that
one call applies to the stored history value of a thread (append the
user/assistant pair, then keep the last `maxHistoryLength * 2` entries).
Redis set/expire and the vector-store write do not alter this value. -/
def saveConversationStep (maxHistoryLength : Nat) (history : List Msg)
    (userMessage botResponse : String) : List Msg :=
  let newHistory := history ++ [⟨"user", userMessage⟩, ⟨"assistant", botResponse⟩]
  sliceLast (maxHistoryLength * 2) newHistory

/-- The stored history after a sequence of `saveConversation` calls
starting from an absent (empty) record. -/
def runSaves (maxHistoryLength : Nat) (calls : List (String × String)) : List Msg :=
  calls.foldl (fun h c => saveConversationStep maxHistoryLength h c.1 c.2) []

/-- The `summaryInput` string built by `generateAndSaveSummary`
(truthiness of the existing summary decides the shape). -/
def summaryInput (existingSummary latestUserMessage latestBotResponse : String) : String :=
  if existingSummary ≠ "" then
    "이전 맥락 요약: " ++ existingSummary ++ "\n\n새로운 대화:\n사용자: " ++
      latestUserMessage ++ "\n봇: " ++ latestBotResponse
  else
    "대화 요약:\n사용자: " ++ latestUserMessage ++ "\n봇: " ++ latestBotResponse

/-- `ConversationContext.generateAndSaveSummary`, effects-as-inputs:
`storedSummary` is the thread's current summary value (what `getSummary`
returns, `""` when absent), `modelResult` the outcome of the
`model.respond` call.  Returns (new stored summary value, returned
summary).  On a model error the `catch` returns `''` without reaching
`saveSummary`, so the store keeps its old value; on success the trimmed
output is stored unconditionally — even when it is empty. -/
def generateAndSaveSummary (storedSummary latestUserMessage latestBotResponse : String)
    (modelResult : Except Unit String) : String × String :=
  let _prompt := summaryInput storedSummary latestUserMessage latestBotResponse
  match modelResult with
  | .error _ => (storedSummary, "")
  | .ok content =>
    let newSummary := jsTrim content
    (newSummary, newSummary)

/-- Result record of `detectTopicChange`.  The TypeScript annotations
say bool/number/string/bool, but the values assigned are raw JSON
fields, so the fields are kept as `Json`. -/
structure TopicAssessment where
  isNewTopic : Json
  similarity : Json
  analysis : Json
  shouldReset : Json

/-- Default returned by `detectTopicChange` when parsing the model's
answer fails (inner `catch`). -/
def topicDefaultParseFail : TopicAssessment :=
  ⟨.bool false, .num 50, .str "분석 실패", .bool false⟩

/-- Default returned by `detectTopicChange` when the model call itself
throws (outer `catch`). -/
def topicDefaultError : TopicAssessment :=
  ⟨.bool false, .num 50, .str "오류 발생", .bool false⟩

/-- `detectTopicChange` (contextSeparation.ts), effects-as-inputs:
`modelResult` is the outcome of `model.respond` on the topic-analysis
prompt, `parseJson` the JSON parser.  A successful parse to `null`
makes the subsequent property reads throw, landing in the inner
`catch` like a parse failure. -/
def detectTopicChange (modelResult : Except Unit String)
    (parseJson : String → Option Json) : TopicAssessment :=
  match modelResult with
  | .error _ => topicDefaultError
  | .ok content =>
    match extractJsonFromText parseJson content with
    | none => topicDefaultParseFail
    | some .null => topicDefaultParseFail
    | some v =>
      ⟨jsOr (v.fieldD "isNewTopic") (.bool false),
       jsOr (v.fieldD "similarity") (.num 0),
       jsOr (v.fieldD "analysis") (.str ""),
       jsOr (v.fieldD "shouldResetContext") (.bool false)⟩

/-- `shouldResetContext` (contextSeparation.ts). -/
def shouldResetContext (similarity contaminationScore : Int) : Bool :=
  similarity < 30 || contaminationScore > 70

/-- Result record of `verifyResponse` (hallucination.ts); fields kept
as `Json` for the same reason as `TopicAssessment`. -/
structure VerificationResult where
  isReliable : Json
  verifiedResponse : Json
  confidenceScore : Json

/-- The fallback `verifyResponse` returns from both of its `catch`
blocks: the original response, marked unreliable with confidence 0. -/
def verifyDefault (response : String) : VerificationResult :=
  ⟨.bool false, .str response, .num 0⟩

/-- `verifyResponse` (hallucination.ts), effects-as-inputs:
`response` is the generated answer under scrutiny, `modelResult` the
outcome of the verification `model.respond` call, `parseJson` the JSON
parser.  A parse result of `null` makes `verificationResult.isReliable`
throw, landing in the parse-failure `catch`. -/
def verifyResponse (response : String) (modelResult : Except Unit String)
    (parseJson : String → Option Json) : VerificationResult :=
  match modelResult with
  | .error _ => verifyDefault response
  | .ok content =>
    match extractJsonFromText parseJson content with
    | none => verifyDefault response
    | some .null => verifyDefault response
    | some v =>
      if !jsTruthy (v.fieldD "isReliable") && jsTruthy (v.fieldD "improvedResponse") then
        ⟨.bool false, v.fieldD "improvedResponse", jsOr (v.fieldD "confidenceScore") (.num 0)⟩
      else
        ⟨jsOr (v.fieldD "isReliable") (.bool false), .str response,
         jsOr (v.fieldD "confidenceScore") (.num 0)⟩

/-! ### util/string.ts

`splitResponseIntoChunks` works on JavaScript string indices, so it is
embedded over `List Char`. -/

/-- Position of the last `'\n'` in `w`, if any. -/
def lastNewlinePos (w : List Char) : Option Nat :=
  (w.reverse.findIdx? (fun c => c == '\n')).map (fun i => w.length - 1 - i)

/-- `response.split(/\n\s*\n/)`: scanning left to right, a match starts
at a `'\n'` whose following maximal whitespace run contains another
`'\n'`; the greedy `\s*` extends the match to the last `'\n'` of that
run.  The fuel argument only makes the recursion structural: every
recursive call strictly shrinks the scanned list, so the initial fuel
`cs.length` is never exhausted and the fuel-out branch is dead. -/
def splitOnBlankAux : Nat → List Char → List Char → List (List Char)
  | _, [], acc => [acc.reverse]
  | 0, cs, acc => [acc.reverse ++ cs]
  | fuel + 1, c :: rest, acc =>
    if c = '\n' then
      match lastNewlinePos (rest.takeWhile jsWhitespace) with
      | some j => acc.reverse :: splitOnBlankAux fuel (rest.drop (j + 1)) []
      | none => splitOnBlankAux fuel rest (c :: acc)
    else
      splitOnBlankAux fuel rest (c :: acc)

/-- Paragraph split of a response (empty-line separators). -/
def splitOnBlank (cs : List Char) : List (List Char) :=
  splitOnBlankAux cs.length cs []

/-- Does `pat` occur in `text` starting at index `i`? -/
def startsWithAt (text pat : List Char) (i : Nat) : Bool :=
  pat.isPrefixOf (text.drop i)

/-- Largest index `≤ n` at which `pat` occurs in `text`. -/
def lastMatchLE (text pat : List Char) : Nat → Option Nat
  | 0 => if startsWithAt text pat 0 then some 0 else none
  | n + 1 => if startsWithAt text pat (n + 1) then some (n + 1) else lastMatchLE text pat n

/-- JavaScript `text.lastIndexOf(pat, fromIndex)` (−1 when absent).
The match may *start* at `fromIndex` itself and run past it. -/
def lastIndexOfFrom (text pat : List Char) (fromIndex : Nat) : Int :=
  match lastMatchLE text pat (min fromIndex text.length) with
  | some i => (i : Int)
  | none => -1

/-- `findNaturalSplitPoint` (util/string.ts).  The source compares
`punctuationPoint > maxLength * 0.7` with IEEE doubles; the comparison
is embedded as the exact rational `10 * p > 7 * maxLength`, which can
disagree with the double rounding only when `p` sits exactly on the
threshold — the theorems below hold on every branch, so none depends
on that boundary. -/
def findNaturalSplitPoint (text : List Char) (maxLength : Nat) : Nat :=
  let punctuationPoint :=
    max (lastIndexOfFrom text ['.', ' '] maxLength)
      (max (lastIndexOfFrom text ['?', ' '] maxLength)
        (max (lastIndexOfFrom text ['!', ' '] maxLength)
          (lastIndexOfFrom text [',', ' '] maxLength)))
  if 10 * punctuationPoint > 7 * (maxLength : Int) then
    (punctuationPoint + 2).toNat
  else
    let spacePoint := lastIndexOfFrom text [' '] maxLength
    if spacePoint > 0 then (spacePoint + 1).toNat
    else maxLength

/-- The `while (remainingText.length > 0)` loop that slices one
overlong paragraph.  Fuel makes the recursion structural; at every call
site the fuel is the paragraph length plus one, which the loop never
exhausts for `maxLength ≥ 1` since each split removes at least one
character. -/
def splitLongParagraph : Nat → Nat → List Char → List (List Char)
  | 0, _, _ => []
  | fuel + 1, maxLength, remaining =>
    if remaining.length = 0 then []
    else if remaining.length ≤ maxLength then [remaining]
    else
      let splitPoint := findNaturalSplitPoint remaining maxLength
      remaining.take splitPoint ::
        splitLongParagraph fuel maxLength (trimChars (remaining.drop splitPoint))

/-- The `for (const paragraph of paragraphs)` loop of
`splitResponseIntoChunks`, carrying the accumulated `chunks` and the
open `currentChunk`. -/
def chunksLoop (maxLength : Nat) : List (List Char) → List (List Char) → List Char → List (List Char)
  | [], chunks, currentChunk =>
    if currentChunk.length > 0 then chunks ++ [currentChunk] else chunks
  | paragraph :: rest, chunks, currentChunk =>
    let delimiterLength := if currentChunk.length > 0 then 2 else 0
    let potentialLength := currentChunk.length + delimiterLength + paragraph.length
    if potentialLength > maxLength then
      let chunks1 := if currentChunk.length > 0 then chunks ++ [currentChunk] else chunks
      if paragraph.length > maxLength then
        chunksLoop maxLength rest (chunks1 ++ splitLongParagraph (paragraph.length + 1) maxLength paragraph) []
      else
        chunksLoop maxLength rest chunks1 paragraph
    else
      let currentChunk1 :=
        if currentChunk.length > 0 then currentChunk ++ ('\n' :: '\n' :: paragraph)
        else paragraph
      chunksLoop maxLength rest chunks currentChunk1

/-- `splitResponseIntoChunks` (util/string.ts). -/
def splitResponseIntoChunks (response : List Char) (maxLength : Nat) : List (List Char) :=
  if response.length = 0 || response.length ≤ maxLength then [response]
  else chunksLoop maxLength (splitOnBlank response) [] []

/-! ### index.ts (final revision) and tools/weatherDateTool.ts -/

/-- `getModelResponse` (index.ts): the `model.respond` outcome is the
input; the `catch` turns a model failure into the empty string. -/
def getModelResponse (modelResult : Except Unit String) : String :=
  match modelResult with
  | .ok prediction => prediction
  | .error _ => ""

/-- Return shape of `WeatherDateTool.processWeatherAndDateRequests`
(the `jsonData` field feeds no claim and is omitted). -/
structure WeatherDateResult where
  isProcessed : Bool
  contextInfo : String

/-- Does `hay` contain `pat` as a substring? -/
def containsSub (hay pat : List Char) : Bool :=
  (List.range (hay.length + 1)).any (fun i => pat.isPrefixOf (hay.drop i))

/-- `String.prototype.toLowerCase`, per character (ASCII range; the
non-ASCII characters this bot sees — Hangul — are case-less). -/
def jsToLower (c : Char) : Char :=
  if 'A' ≤ c && c ≤ 'Z' then Char.ofNat (c.toNat + 32) else c

/-- `lowerMsg.includes(keyword)` against the lowered message. -/
def includesStr (lowerMsg : List Char) (keyword : String) : Bool :=
  containsSub lowerMsg keyword.toList

/-- The date/time trigger keywords of
`WeatherDateTool.processWeatherAndDateRequests`. -/
def dateTimeKeywords : List String :=
  ["날짜", "시간", "요일", "몇 시", "며칠", "오늘"]

/-- The weather trigger keywords of the same function. -/
def weatherKeywords : List String :=
  ["날씨", "기온", "온도", "습도", "바람", "기상"]

/-- `WeatherDateTool.processWeatherAndDateRequests`, effects-as-inputs:
`dateTimeText` is what `getCurrentDateTime().fullDateTime` yields and
`weatherBranchText` the `contextInfo` text the weather branch appends
(it depends only on the external date/weather providers, and every
path of that branch — success, location-not-found fallback, API error,
outer catch — ends with `isProcessed = true`). -/
def processWeatherAndDateRequests (dateTimeText weatherBranchText message : String) :
    WeatherDateResult :=
  let lowerMsg := message.toList.map jsToLower
  let dateHit := dateTimeKeywords.any (fun k => includesStr lowerMsg k)
  let weatherHit := weatherKeywords.any (fun k => includesStr lowerMsg k)
  let contextInfo1 := if dateHit then "현재 날짜와 시간: " ++ dateTimeText ++ "\n\n" else ""
  let contextInfo2 := if weatherHit then contextInfo1 ++ weatherBranchText else contextInfo1
  ⟨dateHit || weatherHit, contextInfo2⟩

/-- Everything one `handleMessage` turn computes after the thread is
resolved (final revision of index.ts, lines 470–565).  Transport sends
(loading message, chunked reply) are external and recorded nowhere;
what matters to the claims is recorded in the fields below. -/
structure TurnResult where
  hasCompressedContext : Bool
  /-- Whether the turn invoked `generateContext` (the web-search flow). -/
  calledGenerateContext : Bool
  searchContext : String
  combinedContext : String
  enhancedQuery : String
  systemMessage : String
  /-- The response produced by the single GENERATION call. -/
  response : String
  /-- How many times the turn invoked the main generation
  (`getModelResponse(enhancedQuery, …)`); the source has exactly one
  such call site and no retry loop. -/
  generationAttempts : Nat
  /-- `latestUserMessage` handed to `generateAndSaveSummary`. -/
  persistedUserMessage : String
  /-- `latestBotResponse` handed to `generateAndSaveSummary`. -/
  persistedBotResponse : String
  /-- The thread's stored summary after the PERSIST step. -/
  summaryStoreAfter : String
  summaryReturned : String

/-- The turn pipeline of `handleMessage` (final revision), effects as
inputs: `storedSummary` is the thread's summary value in Redis (read
once at the top and still current at the PERSIST step, since nothing
writes in between), `wdr` the result of the weather/date tool,
`generateContextResult` what `generateContext` would return if called,
and `genModelResult` / `summaryModelResult` the outcomes of the two
remaining `model.respond` calls. -/
def handleMessageCore (storedSummary : String) (wdr : WeatherDateResult)
    (generateContextResult : String) (genModelResult summaryModelResult : Except Unit String)
    (messageContent threadName : String) : TurnResult :=
  let compressedContext := storedSummary
  let hasCompressedContext := compressedContext.length > 0
  let (calledGenerateContext, searchContext) :=
    if !wdr.isProcessed then (true, generateContextResult) else (false, "")
  let combined0 :=
    if hasCompressedContext then "이전 대화 맥락 요약:\n" ++ compressedContext ++ "\n\n" else ""
  let combined1 :=
    if wdr.isProcessed && wdr.contextInfo ≠ "" then combined0 ++ wdr.contextInfo else combined0
  let combinedContext := if searchContext ≠ "" then combined1 ++ searchContext else combined1
  let enhancedQuery :=
    if combinedContext ≠ "" then
      "참고 정보:\n" ++ combinedContext ++ "\n\n사용자 질문: " ++ messageContent ++
        "\n\n질의 주제: " ++ threadName
    else messageContent
  let systemMessage :=
    "당신은 도움이 되는 디스코드 봇입니다. 현재 날짜와 시간, 날씨 정보에 접근할 수 있습니다. " ++
      (if hasCompressedContext then "이전 대화 맥락을 기억하고 일관된 응답을 제공하세요." else "")
  let response := getModelResponse genModelResult
  let (summaryStoreAfter, summaryReturned) :=
    generateAndSaveSummary compressedContext messageContent response summaryModelResult
  { hasCompressedContext := hasCompressedContext
    calledGenerateContext := calledGenerateContext
    searchContext := searchContext
    combinedContext := combinedContext
    enhancedQuery := enhancedQuery
    systemMessage := systemMessage
    response := response
    generationAttempts := 1
    persistedUserMessage := messageContent
    persistedBotResponse := response
    summaryStoreAfter := summaryStoreAfter
    summaryReturned := summaryReturned }

/-! ## Claims -/

/-- C3: for all integer scores `similarity` and `contaminationScore` in
`[0, 100]`, `shouldResetContext` returns `true` iff `similarity < 30`
or `contaminationScore > 70` — either signal alone triggers a reset. -/
theorem shouldResetContext_iff (similarity contaminationScore : Int)
    (_h0 : 0 ≤ similarity) (_h1 : similarity ≤ 100)
    (_h2 : 0 ≤ contaminationScore) (_h3 : contaminationScore ≤ 100) :
    shouldResetContext similarity contaminationScore = true ↔
      (similarity < 30 ∨ contaminationScore > 70) := by
  simp [shouldResetContext]

/-- Witness for C3 at `similarity = 10`, `contaminationScore = 0`. -/
theorem shouldResetContext_iff_w :
    shouldResetContext 10 0 = true ↔ ((10 : Int) < 30 ∨ (0 : Int) > 70) :=
  shouldResetContext_iff 10 0 (by decide) (by decide) (by decide) (by decide)

/-- C5 (amended): a failing `model.respond` call makes
`generateAndSaveSummary` return `''` from its `catch` without touching
the stored summary; but an *empty* model output is not treated as a
failure — the trimmed (empty) output is saved, overwriting the stored
summary. -/
theorem generateAndSaveSummary_error_keeps_store (storedSummary u a : String) :
    generateAndSaveSummary storedSummary u a (Except.error ()) = (storedSummary, "") ∧
    ∀ content, (generateAndSaveSummary storedSummary u a (Except.ok content)).1 = jsTrim content :=
  ⟨rfl, fun _ => rfl⟩

/-- Counterexample to C5 as stated: with stored summary `"이전 요약"`
and an empty (successful) model output, the stored summary after the
call is the empty string, not the previous value. -/
theorem generateAndSaveSummary_empty_output_overwrites :
    (generateAndSaveSummary "이전 요약" "질문" "답변" (Except.ok "")).1 ≠ "이전 요약" := by
  decide

/-- C2: when the topic-shift model answer contains no parseable JSON
object (`extractJsonFromText` throws), `detectTopicChange` returns the
neutral default `isNewTopic = false`, `similarity = 50`,
`shouldResetContext = false`; the function is total, so no exception
reaches the caller. -/
theorem detectTopicChange_parse_failure_neutral (parseJson : String → Option Json)
    (content : String) (h : extractJsonFromText parseJson content = none) :
    (detectTopicChange (Except.ok content) parseJson).isNewTopic = Json.bool false ∧
    (detectTopicChange (Except.ok content) parseJson).similarity = Json.num 50 ∧
    (detectTopicChange (Except.ok content) parseJson).shouldReset = Json.bool false := by
  simp [detectTopicChange, h, topicDefaultParseFail]

/-- Witness for C2: a brace-free model answer, under a parser that
accepts everything, still yields the neutral default. -/
theorem detectTopicChange_parse_failure_neutral_w :
    (detectTopicChange (Except.ok "JSON 형식이 아닌 답변")
        (fun s => some (Json.str s))).isNewTopic = Json.bool false ∧
    (detectTopicChange (Except.ok "JSON 형식이 아닌 답변")
        (fun s => some (Json.str s))).similarity = Json.num 50 ∧
    (detectTopicChange (Except.ok "JSON 형식이 아닌 답변")
        (fun s => some (Json.str s))).shouldReset = Json.bool false :=
  detectTopicChange_parse_failure_neutral _ _ rfl

/-- C8: when the verifier's model judgment cannot be parsed (or the
verification call itself fails), `verifyResponse` returns exactly
`isReliable = false`, `confidenceScore = 0`, and the original response
as `verifiedResponse`. -/
theorem verifyResponse_parse_failure_original (response : String)
    (modelResult : Except Unit String) (parseJson : String → Option Json)
    (h : ∀ content, modelResult = Except.ok content →
      extractJsonFromText parseJson content = none) :
    verifyResponse response modelResult parseJson = verifyDefault response := by
  cases modelResult with
  | error e => rfl
  | ok content => simp [verifyResponse, h content rfl]

/-- Witness for C8: a brace-free judgment text under an
accept-everything parser degrades to the original response. -/
theorem verifyResponse_parse_failure_original_w :
    verifyResponse "원본 응답" (Except.ok "검증 불가 텍스트") (fun s => some (Json.str s)) =
      verifyDefault "원본 응답" :=
  verifyResponse_parse_failure_original _ _ _ (fun content hc => by cases hc; rfl)

/-- C4: on a successfully parsed verifier judgment `v`, if `v` reports
a false(-y) `isReliable` and supplies a non-empty (truthy)
`improvedResponse`, that `improvedResponse` is returned as the
`verifiedResponse`; in every other successfully parsed case the
original response is returned unchanged, with the reported confidence
score (defaulted to 0 by `|| 0` when absent or falsy) attached. -/
theorem verifyResponse_parsed_cases (response content : String)
    (parseJson : String → Option Json) (v : Json)
    (h : extractJsonFromText parseJson content = some v) :
    (jsTruthy (v.fieldD "isReliable") = false → jsTruthy (v.fieldD "improvedResponse") = true →
      (verifyResponse response (Except.ok content) parseJson).verifiedResponse =
        v.fieldD "improvedResponse") ∧
    (jsTruthy (v.fieldD "isReliable") = true ∨ jsTruthy (v.fieldD "improvedResponse") = false →
      (verifyResponse response (Except.ok content) parseJson).verifiedResponse =
          Json.str response ∧
        (verifyResponse response (Except.ok content) parseJson).confidenceScore =
          jsOr (v.fieldD "confidenceScore") (Json.num 0)) := by
  cases v with
  | null =>
    refine ⟨fun _ himp => ?_, fun _ => ?_⟩
    · simp [Json.fieldD, jsTruthy] at himp
    · simp [verifyResponse, h, verifyDefault, Json.fieldD, jsOr, jsTruthy]
  | bool b =>
    constructor
    · intro hrel himp
      simp [verifyResponse, h, hrel, himp]
    · intro hother
      rcases hother with hrel | himp
      · simp [verifyResponse, h, hrel]
      · simp [verifyResponse, h, himp]
  | num n =>
    constructor
    · intro hrel himp
      simp [verifyResponse, h, hrel, himp]
    · intro hother
      rcases hother with hrel | himp
      · simp [verifyResponse, h, hrel]
      · simp [verifyResponse, h, himp]
  | str s =>
    constructor
    · intro hrel himp
      simp [verifyResponse, h, hrel, himp]
    · intro hother
      rcases hother with hrel | himp
      · simp [verifyResponse, h, hrel]
      · simp [verifyResponse, h, himp]
  | arr elems =>
    constructor
    · intro hrel himp
      simp [verifyResponse, h, hrel, himp]
    · intro hother
      rcases hother with hrel | himp
      · simp [verifyResponse, h, hrel]
      · simp [verifyResponse, h, himp]
  | obj fields =>
    constructor
    · intro hrel himp
      simp [verifyResponse, h, hrel, himp]
    · intro hother
      rcases hother with hrel | himp
      · simp [verifyResponse, h, hrel]
      · simp [verifyResponse, h, himp]

/-- Witness for C4: a judgment reporting `isReliable = false` with
`improvedResponse = "개선된 응답"` makes that text the verified
response. -/
theorem verifyResponse_parsed_cases_w :
    jsTruthy ((Json.obj [("isReliable", Json.bool false),
        ("improvedResponse", Json.str "개선된 응답")]).fieldD "isReliable") = false ∧
    (verifyResponse "원본" (Except.ok "어떤 텍스트 \x7b판정\x7d")
        (fun _ => some (Json.obj [("isReliable", Json.bool false),
          ("improvedResponse", Json.str "개선된 응답")]))).verifiedResponse =
      Json.str "개선된 응답" := by
  refine ⟨rfl, ?_⟩
  have := verifyResponse_parsed_cases "원본" "어떤 텍스트 \x7b판정\x7d"
    (fun _ => some (Json.obj [("isReliable", Json.bool false),
      ("improvedResponse", Json.str "개선된 응답")]))
    (Json.obj [("isReliable", Json.bool false),
      ("improvedResponse", Json.str "개선된 응답")]) rfl
  exact this.1 rfl rfl

/-- C6: date/weather lookup and web search are mutually exclusive in a
turn — when the message hits a date/weather trigger keyword (so
`weatherDateResult.isProcessed` is true), the turn never invokes
`generateContext`. -/
theorem weather_date_skips_search (dateTimeText weatherBranchText msg : String)
    (storedSummary generateContextResult : String)
    (genModelResult summaryModelResult : Except Unit String) (threadName : String)
    (h : (processWeatherAndDateRequests dateTimeText weatherBranchText msg).isProcessed = true) :
    (handleMessageCore storedSummary
        (processWeatherAndDateRequests dateTimeText weatherBranchText msg)
        generateContextResult genModelResult summaryModelResult msg
        threadName).calledGenerateContext = false := by
  simp [handleMessageCore, h]

/-- Witness for C6: the message `"서울 날씨 알려줘"` contains the
keyword `"날씨"`, and its turn does not call `generateContext`. -/
theorem weather_date_skips_search_w :
    (processWeatherAndDateRequests "" "날씨 정보" "서울 날씨 알려줘").isProcessed = true ∧
    (handleMessageCore "" (processWeatherAndDateRequests "" "날씨 정보" "서울 날씨 알려줘")
        "검색 결과" (Except.ok "응답") (Except.ok "요약") "서울 날씨 알려줘"
        "스레드").calledGenerateContext = false :=
  ⟨by decide, weather_date_skips_search "" "날씨 정보" "서울 날씨 알려줘" "" "검색 결과"
    (Except.ok "응답") (Except.ok "요약") "스레드" (by decide)⟩

/-- C9: when the main generation `model.respond` call fails,
`getModelResponse` returns the empty string instead of raising; the
turn still reaches the PERSIST step, handing that empty response (and
the user's message) to `generateAndSaveSummary`; generation is invoked
exactly once — there is no retry. -/
theorem generation_failure_continues_to_persist (storedSummary : String)
    (wdr : WeatherDateResult) (generateContextResult : String)
    (summaryModelResult : Except Unit String) (msg threadName : String) :
    (handleMessageCore storedSummary wdr generateContextResult (Except.error ())
        summaryModelResult msg threadName).response = "" ∧
    (handleMessageCore storedSummary wdr generateContextResult (Except.error ())
        summaryModelResult msg threadName).persistedBotResponse = "" ∧
    (handleMessageCore storedSummary wdr generateContextResult (Except.error ())
        summaryModelResult msg threadName).persistedUserMessage = msg ∧
    (handleMessageCore storedSummary wdr generateContextResult (Except.error ())
        summaryModelResult msg threadName).generationAttempts = 1 := by
  refine ⟨?_, ?_, ?_, ?_⟩ <;> simp [handleMessageCore, getModelResponse]

/-! ### History-store invariants (C1, C7) -/

/-- The flattening of user/assistant turn pairs into a history list. -/
def pairFlat : List (String × String) → List Msg
  | [] => []
  | p :: ps => ⟨"user", p.1⟩ :: ⟨"assistant", p.2⟩ :: pairFlat ps

theorem pairFlat_length (ps : List (String × String)) :
    (pairFlat ps).length = 2 * ps.length := by
  induction ps with
  | nil => rfl
  | cons p ps ih => simp [pairFlat, ih]; omega

theorem pairFlat_append (ps qs : List (String × String)) :
    pairFlat (ps ++ qs) = pairFlat ps ++ pairFlat qs := by
  induction ps with
  | nil => rfl
  | cons p ps ih => simp [pairFlat, ih]

theorem pairFlat_drop (k : Nat) (ps : List (String × String)) :
    (pairFlat ps).drop (2 * k) = pairFlat (ps.drop k) := by
  induction k generalizing ps with
  | zero => simp
  | succ k ih =>
    cases ps with
    | nil => simp [pairFlat]
    | cons p ps =>
      have h2 : 2 * (k + 1) = 2 * k + 2 := by omega
      rw [h2]
      simpa [pairFlat] using ih ps

theorem pairFlat_get (ps : List (String × String)) :
    ∀ i (h : i < (pairFlat ps).length),
      ((pairFlat ps).get ⟨i, h⟩).role = if i % 2 = 0 then "user" else "assistant" := by
  induction ps with
  | nil => intro i h; simp [pairFlat] at h
  | cons p ps ih =>
    intro i h
    match i with
    | 0 => rfl
    | 1 => rfl
    | i + 2 =>
      have h2 : i < (pairFlat ps).length := by
        simpa [pairFlat] using h
      have hr := ih i h2
      have hpar : (i + 2) % 2 = i % 2 := by omega
      rw [hpar]
      exact hr

/-- A stored history value is a whole number of (user, assistant)
pairs, in order. -/
def IsPairHistory (l : List Msg) : Prop :=
  ∃ ps : List (String × String), l = pairFlat ps

/-- `saveConversation` appends one whole pair and then drops whole
pairs from the front (the dropped count `(len + 2) − 2·maxPairs` is
even), so the pair shape survives one call. -/
theorem step_shape (m : Nat) (l : List Msg) (u b : String) (h : IsPairHistory l) :
    IsPairHistory (saveConversationStep m l u b) := by
  obtain ⟨ps, rfl⟩ := h
  unfold saveConversationStep sliceLast
  by_cases hm : m * 2 = 0
  · refine ⟨ps ++ [(u, b)], ?_⟩
    simp [hm, pairFlat_append, pairFlat]
  · simp only [hm, if_false]
    refine ⟨(ps ++ [(u, b)]).drop ((ps.length + 1) - m), ?_⟩
    have hl : pairFlat ps ++ [⟨"user", u⟩, ⟨"assistant", b⟩] = pairFlat (ps ++ [(u, b)]) := by
      simp [pairFlat_append, pairFlat]
    rw [hl, ← pairFlat_drop]
    congr 1
    rw [pairFlat_length]
    simp
    omega

theorem runSaves_shape (m : Nat) (calls : List (String × String)) :
    IsPairHistory (runSaves m calls) := by
  suffices h : ∀ l, IsPairHistory l →
      IsPairHistory (calls.foldl (fun h c => saveConversationStep m h c.1 c.2) l) by
    exact h [] ⟨[], rfl⟩
  induction calls with
  | nil => intro l hl; exact hl
  | cons c cs ih => intro l hl; exact ih _ (step_shape m l c.1 c.2 hl)

theorem length_saveConversationStep (m : Nat) (l : List Msg) (u b : String) :
    (saveConversationStep m l u b).length =
      if m * 2 = 0 then l.length + 2
      else (l.length + 2) - ((l.length + 2) - m * 2) := by
  unfold saveConversationStep sliceLast
  by_cases hm : m * 2 = 0 <;> simp [hm]

/-- C1: starting from an empty record, any sequence of
`saveConversation` calls leaves the stored history with length at most
`2 × maxPairs` and always even — truncation never splits a pair. -/
theorem history_bounded_even (maxHistoryLength : Nat) (hm : 1 ≤ maxHistoryLength)
    (calls : List (String × String)) :
    (runSaves maxHistoryLength calls).length ≤ 2 * maxHistoryLength ∧
    (runSaves maxHistoryLength calls).length % 2 = 0 := by
  suffices h : ∀ l : List Msg, l.length ≤ 2 * maxHistoryLength ∧ l.length % 2 = 0 →
      (calls.foldl (fun h c => saveConversationStep maxHistoryLength h c.1 c.2) l).length ≤
          2 * maxHistoryLength ∧
        (calls.foldl (fun h c => saveConversationStep maxHistoryLength h c.1 c.2) l).length % 2
          = 0 by
    exact h [] ⟨by simp, by simp⟩
  induction calls with
  | nil => intro l hl; exact hl
  | cons c cs ih =>
    intro l hl
    apply ih
    rw [length_saveConversationStep]
    have hne : ¬ (maxHistoryLength * 2 = 0) := by omega
    simp only [hne, if_false]
    omega

/-- Witness for C1 at the default `maxPairs = 10` and two turns. -/
theorem history_bounded_even_w :
    (runSaves 10 [("질문1", "답변1"), ("질문2", "답변2")]).length ≤ 2 * 10 ∧
    (runSaves 10 [("질문1", "답변1"), ("질문2", "답변2")]).length % 2 = 0 :=
  history_bounded_even 10 (by decide) [("질문1", "답변1"), ("질문2", "답변2")]

/-- C7: starting from an empty record, after any sequence of
`saveConversation` calls every even index of the stored history holds a
`"user"` entry and every odd index an `"assistant"` entry. -/
theorem history_alternates (maxHistoryLength : Nat) (calls : List (String × String))
    (i : Nat) (h : i < (runSaves maxHistoryLength calls).length) :
    ((runSaves maxHistoryLength calls).get ⟨i, h⟩).role =
      if i % 2 = 0 then "user" else "assistant" := by
  obtain ⟨ps, hps⟩ := runSaves_shape maxHistoryLength calls
  have h2 : i < (pairFlat ps).length := by rw [← hps]; exact h
  calc ((runSaves maxHistoryLength calls).get ⟨i, h⟩).role
      = ((pairFlat ps).get ⟨i, h2⟩).role := by congr 1; simp [hps]
    _ = if i % 2 = 0 then "user" else "assistant" := pairFlat_get ps i h2

/-- Witness for C7: after one turn, index 0 is the user entry and
index 1 the assistant entry. -/
theorem history_alternates_w :
    ((runSaves 10 [("질문", "답변")]).get ⟨1, by decide⟩).role =
      if 1 % 2 = 0 then "user" else "assistant" :=
  history_alternates 10 [("질문", "답변")] 1 (by decide)

/-! ### Chunk-length bound (C10) -/

theorem lastMatchLE_le (text pat : List Char) :
    ∀ n i, lastMatchLE text pat n = some i → i ≤ n := by
  intro n
  induction n with
  | zero =>
    intro i h
    unfold lastMatchLE at h
    split at h
    · injection h with h2; omega
    · cases h
  | succ n ih =>
    intro i h
    unfold lastMatchLE at h
    split at h
    · injection h with h2; omega
    · exact Nat.le_trans (ih i h) (by omega)

/-- A JavaScript `lastIndexOf(pat, fromIndex)` result never exceeds
`fromIndex` (though the matched text may run past it). -/
theorem lastIndexOfFrom_le (text pat : List Char) (f : Nat) :
    lastIndexOfFrom text pat f ≤ (f : Int) := by
  unfold lastIndexOfFrom
  split
  · next i hi =>
    have h1 := lastMatchLE_le text pat _ i hi
    have h2 : i ≤ f := le_trans h1 (min_le_left _ _)
    exact_mod_cast h2
  · omega

/-- `findNaturalSplitPoint` can point up to two characters past
`maxLength` (punctuation-plus-space branch), but no further. -/
theorem findNaturalSplitPoint_le (text : List Char) (m : Nat) :
    findNaturalSplitPoint text m ≤ m + 2 := by
  simp only [findNaturalSplitPoint]
  have hp : max (lastIndexOfFrom text ['.', ' '] m)
      (max (lastIndexOfFrom text ['?', ' '] m)
        (max (lastIndexOfFrom text ['!', ' '] m)
          (lastIndexOfFrom text [',', ' '] m))) ≤ (m : Int) := by
    apply max_le (lastIndexOfFrom_le _ _ _)
    apply max_le (lastIndexOfFrom_le _ _ _)
    exact max_le (lastIndexOfFrom_le _ _ _) (lastIndexOfFrom_le _ _ _)
  have hs := lastIndexOfFrom_le text [' '] m
  split
  · omega
  · split
    · omega
    · omega

theorem splitLongParagraph_bound (m : Nat) :
    ∀ fuel remaining c, c ∈ splitLongParagraph fuel m remaining → c.length ≤ m + 2 := by
  intro fuel
  induction fuel with
  | zero => intro r c h; simp [splitLongParagraph] at h
  | succ fuel ih =>
    intro r c h
    unfold splitLongParagraph at h
    split at h
    · simp at h
    · split at h
      · next h2 =>
        simp at h
        subst h
        omega
      · simp at h
        rcases h with h | h
        · subst h
          have := findNaturalSplitPoint_le r m
          simp [List.length_take]
          omega
        · exact ih _ c h

theorem chunksLoop_bound (m : Nat) :
    ∀ ps chunks current, (∀ c ∈ chunks, c.length ≤ m + 2) → current.length ≤ m →
      ∀ c ∈ chunksLoop m ps chunks current, c.length ≤ m + 2 := by
  intro ps
  induction ps with
  | nil =>
    intro chunks current hch hcur c hc
    unfold chunksLoop at hc
    split at hc
    · simp at hc
      rcases hc with hc | hc
      · exact hch c hc
      · subst hc; omega
    · exact hch c hc
  | cons p rest ih =>
    intro chunks current hch hcur c hc
    have hchCur : ∀ c2 ∈ chunks ++ [current], c2.length ≤ m + 2 := by
      intro c2 hc2
      simp at hc2
      rcases hc2 with hc2 | hc2
      · exact hch c2 hc2
      · subst hc2; omega
    have hsplit : ∀ ch : List (List Char), (∀ c2 ∈ ch, c2.length ≤ m + 2) →
        ∀ c2 ∈ ch ++ splitLongParagraph (p.length + 1) m p, c2.length ≤ m + 2 := by
      intro ch hch2 c2 hc2
      simp at hc2
      rcases hc2 with hc2 | hc2
      · exact hch2 c2 hc2
      · exact splitLongParagraph_bound m _ _ c2 hc2
    by_cases hcur0 : current.length > 0
    · by_cases hpot : current.length + 2 + p.length > m
      · by_cases hplen : p.length > m
        · simp only [chunksLoop, hcur0, hpot, hplen, if_true, if_pos] at hc
          exact ih _ [] (hsplit _ hchCur) (by simp) c hc
        · simp only [chunksLoop, hcur0, hpot, hplen, if_true, if_pos, if_neg,
            not_false_eq_true] at hc
          exact ih _ p hchCur (by omega) c hc
      · simp only [chunksLoop, hcur0, hpot, if_true, if_pos, if_neg, not_false_eq_true] at hc
        exact ih _ _ hch (by simp; omega) c hc
    · have hcur00 : current.length = 0 := by omega
      by_cases hplen : p.length > m
      · simp [chunksLoop, hcur0, hcur00, hplen] at hc
        exact ih _ [] (hsplit _ hch) (by simp) c hc
      · simp [chunksLoop, hcur0, hcur00, hplen] at hc
        exact ih _ p hch (by omega) c hc

/-- C10 (amended): every chunk emitted by `splitResponseIntoChunks` has
length at most `maxLength + 2` — the natural-split-point path can
overshoot the display limit by the two characters of a punctuation
pair (`". "` etc.) or the one character of a trailing space, so
`maxLength` itself is not a bound, but `maxLength + 2` is. -/
theorem splitResponseIntoChunks_bound (response : List Char) (m : Nat) (c : List Char)
    (h : c ∈ splitResponseIntoChunks response m) : c.length ≤ m + 2 := by
  unfold splitResponseIntoChunks at h
  split at h
  · next hcond =>
    simp only [List.mem_singleton] at h
    subst h
    simp only [Bool.or_eq_true, decide_eq_true_eq] at hcond
    rcases hcond with h0 | h1 <;> omega
  · exact chunksLoop_bound m _ [] [] (by simp) (by simp) c h

/-- Counterexample to C10 as stated: splitting `"abc. xyz"` at
`maxLength = 4` emits the 5-character chunk `"abc. "` — the
punctuation split point `3 + 2` exceeds `maxLength`. -/
theorem splitResponseIntoChunks_cex :
    ¬ ∀ c ∈ splitResponseIntoChunks ("abc. xyz".toList) 4, c.length ≤ 4 := by decide

/-- Witness for C10 (amended) at the same concrete input: the
overlong chunk still obeys the `maxLength + 2` bound. -/
theorem splitResponseIntoChunks_bound_w :
    ("abc. ".toList).length ≤ 4 + 2 :=
  splitResponseIntoChunks_bound ("abc. xyz".toList) 4 ("abc. ".toList) (by decide)

end LmBot
